import Mathlib

/-!
Shallow embedding of the core logic of the `selah` Bible-reading
application (files `app/utils/bible.py`, `app/utils/history.py`,
`app/utils/database.py`), together with theorems settling the frozen
claims about its specification.

Modelling conventions:
* Python `str` values are modelled as `List Char`; Python `int` as `Int`
  (arbitrary precision, so list indices may be negative); Python floats
  that only carry wall-clock times are modelled as `ℚ`.
* Python's `str.lower` is modelled over the ASCII and Latin-1 ranges,
  which covers every character appearing in the static book-name table.
* All functions are total, mirroring the fact that the Python functions
  under consideration return sentinel values instead of raising.
-/

namespace Selah

/-- One entry of the loaded JSON corpus: `{"abbrev": ..., "chapters": [[...]]}`.
The `abbr` field models the JSON key `"abbrev"` (a Lean keyword). -/
structure Book where
  abbr : List Char
  chapters : List (List (List Char))
deriving Repr, DecidableEq

/-- The loaded corpus (`self.books` in `Bible`). -/
abbrev Corpus := List Book

/-- `str.lower` on a single character, over the ASCII and Latin-1 ranges
(uppercase `A`–`Z` and `À`–`Þ` except `×` map to the codepoint 0x20 higher). -/
def pyCharLower (c : Char) : Char :=
  if ('A' ≤ c ∧ c ≤ 'Z') ∨ (0xC0 ≤ c.toNat ∧ c.toNat ≤ 0xDE ∧ c.toNat ≠ 0xD7) then
    Char.ofNat (c.toNat + 0x20)
  else c

/-- `str.lower`. -/
def pyLower (s : List Char) : List Char := s.map pyCharLower

/-- `str.upper` on a single character (same ranges as `pyCharLower`). -/
def pyCharUpper (c : Char) : Char :=
  if ('a' ≤ c ∧ c ≤ 'z') ∨ (0xE0 ≤ c.toNat ∧ c.toNat ≤ 0xFE ∧ c.toNat ≠ 0xF7) then
    Char.ofNat (c.toNat - 0x20)
  else c

/-- `str.upper`. -/
def pyUpper (s : List Char) : List Char := s.map pyCharUpper

/-- `str.strip()`: drop leading and trailing whitespace. -/
def pyStrip (s : List Char) : List Char :=
  ((s.dropWhile Char.isWhitespace).reverse.dropWhile Char.isWhitespace).reverse

/-- The static abbreviation → display-name table `BOOK_NAMES`. -/
def BOOK_NAMES : List (List Char × List Char) :=
  [("gn".data, "Gênesis".data), ("ex".data, "Êxodo".data),
   ("lv".data, "Levítico".data), ("nm".data, "Números".data),
   ("dt".data, "Deuteronômio".data), ("js".data, "Josué".data),
   ("jz".data, "Juízes".data), ("rt".data, "Rute".data),
   ("1sm".data, "1 Samuel".data), ("2sm".data, "2 Samuel".data),
   ("1rs".data, "1 Reis".data), ("2rs".data, "2 Reis".data),
   ("1cr".data, "1 Crônicas".data), ("2cr".data, "2 Crônicas".data),
   ("ed".data, "Esdras".data), ("ne".data, "Neemias".data),
   ("et".data, "Ester".data), ("jó".data, "Jó".data),
   ("sl".data, "Salmos".data), ("pv".data, "Provérbios".data),
   ("ec".data, "Eclesiastes".data), ("ct".data, "Cânticos".data),
   ("is".data, "Isaías".data), ("jr".data, "Jeremias".data),
   ("lm".data, "Lamentações".data), ("ez".data, "Ezequiel".data),
   ("dn".data, "Daniel".data), ("os".data, "Oséias".data),
   ("jl".data, "Joel".data), ("am".data, "Amós".data),
   ("ob".data, "Obadias".data), ("jn".data, "Jonas".data),
   ("mq".data, "Miquéias".data), ("na".data, "Naum".data),
   ("hc".data, "Habacuque".data), ("sf".data, "Sofonias".data),
   ("ag".data, "Ageu".data), ("zc".data, "Zacarias".data),
   ("ml".data, "Malaquias".data),
   ("mt".data, "Mateus".data), ("mc".data, "Marcos".data),
   ("lc".data, "Lucas".data), ("jo".data, "João".data),
   ("at".data, "Atos".data), ("rm".data, "Romanos".data),
   ("1co".data, "1 Coríntios".data), ("2co".data, "2 Coríntios".data),
   ("gl".data, "Gálatas".data), ("ef".data, "Efésios".data),
   ("fp".data, "Filipenses".data), ("cl".data, "Colossenses".data),
   ("1ts".data, "1 Tessalonicenses".data), ("2ts".data, "2 Tessalonicenses".data),
   ("1tm".data, "1 Timóteo".data), ("2tm".data, "2 Timóteo".data),
   ("tt".data, "Tito".data), ("fm".data, "Filemom".data),
   ("hb".data, "Hebreus".data), ("tg".data, "Tiago".data),
   ("1pe".data, "1 Pedro".data), ("2pe".data, "2 Pedro".data),
   ("1jo".data, "1 João".data), ("2jo".data, "2 João".data),
   ("3jo".data, "3 João".data), ("jd".data, "Judas".data),
   ("ap".data, "Apocalipse".data)]

/-- `Bible.get_book`: the book at `index`, or `none` when out of range. -/
def getBook (books : Corpus) (index : Int) : Option Book :=
  if 0 ≤ index ∧ index < (books.length : Int) then books.get? index.toNat else none

/-- `Bible.get_book_name`: display name from `BOOK_NAMES`, uppercased
abbreviation as fallback, empty for an invalid index. -/
def getBookName (books : Corpus) (index : Int) : List Char :=
  match getBook books index with
  | some book =>
    match BOOK_NAMES.lookup book.abbr with
    | some name => name
    | none => pyUpper book.abbr
  | none => []

/-- `Bible.get_chapter_count`. -/
def getChapterCount (books : Corpus) (bookIndex : Int) : Int :=
  match getBook books bookIndex with
  | some book => book.chapters.length
  | none => 0

/-- `Bible.get_chapter`: the verse list, or `[]` when any index is invalid. -/
def getChapter (books : Corpus) (bookIndex chapterIndex : Int) : List (List Char) :=
  match getBook books bookIndex with
  | some book =>
    if 0 ≤ chapterIndex ∧ chapterIndex < (book.chapters.length : Int) then
      (book.chapters.get? chapterIndex.toNat).getD []
    else []
  | none => []

/-- `Bible.get_verse`: the verse text, or `""` when any index is invalid. -/
def getVerse (books : Corpus) (bookIndex chapterIndex verseIndex : Int) : List Char :=
  let chapter := getChapter books bookIndex chapterIndex
  if 0 ≤ verseIndex ∧ verseIndex < (chapter.length : Int) then
    (chapter.get? verseIndex.toNat).getD []
  else []

/-- `Bible.get_verse_count`. -/
def getVerseCount (books : Corpus) (bookIndex chapterIndex : Int) : Int :=
  (getChapter books bookIndex chapterIndex).length

/-- Decimal digits of a natural number. -/
def natChars (n : Nat) : List Char := Nat.toDigits 10 n

/-- Decimal rendering of a Python integer. -/
def intChars (i : Int) : List Char :=
  if i < 0 then '-' :: natChars i.natAbs else natChars i.toNat

/-- `Bible.get_reference`: `"{name} {chapter+1}:{verse+1}"`. -/
def getReference (books : Corpus) (bookIndex chapterIndex verseIndex : Int) : List Char :=
  getBookName books bookIndex ++ ' ' :: intChars (chapterIndex + 1)
    ++ ':' :: intChars (verseIndex + 1)

/-- `Bible.get_next_position`: `(book, chapter, verse, is_end)`. -/
def getNextPosition (books : Corpus) (bookIndex chapterIndex verseIndex : Int) :
    Int × Int × Int × Bool :=
  let verseCount := getVerseCount books bookIndex chapterIndex
  if verseIndex + 1 < verseCount then
    (bookIndex, chapterIndex, verseIndex + 1, false)
  else
    let chapterCount := getChapterCount books bookIndex
    if chapterIndex + 1 < chapterCount then
      (bookIndex, chapterIndex + 1, 0, false)
    else if bookIndex + 1 < (books.length : Int) then
      (bookIndex + 1, 0, 0, false)
    else
      (bookIndex, chapterIndex, verseIndex, true)

/-- `Bible.get_previous_position`: `(book, chapter, verse, is_start)`. -/
def getPreviousPosition (books : Corpus) (bookIndex chapterIndex verseIndex : Int) :
    Int × Int × Int × Bool :=
  if verseIndex > 0 then
    (bookIndex, chapterIndex, verseIndex - 1, false)
  else if chapterIndex > 0 then
    let newChapter := chapterIndex - 1
    let lastVerse := getVerseCount books bookIndex newChapter - 1
    (bookIndex, newChapter, max 0 lastVerse, false)
  else if bookIndex > 0 then
    let newBook := bookIndex - 1
    let lastChapter := getChapterCount books newBook - 1
    let lastVerse := getVerseCount books newBook lastChapter - 1
    (newBook, max 0 lastChapter, max 0 lastVerse, false)
  else
    (0, 0, 0, true)

/-- A position is valid when every index is in range for the loaded corpus. -/
def ValidPosition (books : Corpus) (bookIndex chapterIndex verseIndex : Int) : Prop :=
  0 ≤ bookIndex ∧ bookIndex < (books.length : Int) ∧
  0 ≤ chapterIndex ∧ chapterIndex < getChapterCount books bookIndex ∧
  0 ≤ verseIndex ∧ verseIndex < getVerseCount books bookIndex chapterIndex

instance (books : Corpus) (b c v : Int) : Decidable (ValidPosition books b c v) := by
  unfold ValidPosition; infer_instance

/-- The last verse of the last chapter of the last book. -/
def LastPosition (books : Corpus) (bookIndex chapterIndex verseIndex : Int) : Prop :=
  verseIndex + 1 = getVerseCount books bookIndex chapterIndex ∧
  chapterIndex + 1 = getChapterCount books bookIndex ∧
  bookIndex + 1 = (books.length : Int)

instance (books : Corpus) (b c v : Int) : Decidable (LastPosition books b c v) := by
  unfold LastPosition; infer_instance

/-- C2: for a valid position that is not the last verse of the corpus,
`get_previous_position` inverts `get_next_position`, with both boundary
flags `false`. -/
theorem prev_next_roundtrip (books : Corpus) (b c v : Int)
    (hval : ValidPosition books b c v) (hlast : ¬ LastPosition books b c v) :
    ∃ b' c' v', getNextPosition books b c v = (b', c', v', false) ∧
      getPreviousPosition books b' c' v' = (b, c, v, false) := by
  obtain ⟨hb0, hb1, hc0, hc1, hv0, hv1⟩ := hval
  unfold LastPosition at hlast
  by_cases h1 : v + 1 < getVerseCount books b c
  · refine ⟨b, c, v + 1, ?_, ?_⟩
    · simp only [getNextPosition]; rw [if_pos h1]
    · simp only [getPreviousPosition]
      rw [if_pos (by omega)]
      have hv' : v + 1 - 1 = v := by omega
      rw [hv']
  · by_cases h2 : c + 1 < getChapterCount books b
    · refine ⟨b, c + 1, 0, ?_, ?_⟩
      · simp only [getNextPosition]; rw [if_neg h1, if_pos h2]
      · simp only [getPreviousPosition]
        rw [if_neg (by omega), if_pos (by omega)]
        have hc' : c + 1 - 1 = c := by omega
        rw [hc']
        have hm : max 0 (getVerseCount books b c - 1) = v := by omega
        rw [hm]
    · by_cases h3 : b + 1 < (books.length : Int)
      · refine ⟨b + 1, 0, 0, ?_, ?_⟩
        · simp only [getNextPosition]; rw [if_neg h1, if_neg h2, if_pos h3]
        · simp only [getPreviousPosition]
          rw [if_neg (by omega), if_neg (by omega), if_pos (by omega)]
          have hb' : b + 1 - 1 = b := by omega
          rw [hb']
          have hcc : getChapterCount books b = c + 1 := by omega
          rw [hcc]
          have hc' : c + 1 - 1 = c := by omega
          rw [hc']
          have hm1 : max 0 c = c := by omega
          have hm2 : max 0 (getVerseCount books b c - 1) = v := by omega
          rw [hm1, hm2]
      · exact absurd ⟨by omega, by omega, by omega⟩ hlast

/-- Concrete witness corpus: one book, one chapter, two verses. -/
def witCorpus : Corpus := [⟨"gn".data, [["a".data, "b".data]]⟩]

/-- Witness for C2 at the concrete position (0,0,0) of `witCorpus`. -/
theorem prev_next_roundtrip_wit :
    ∃ b' c' v', getNextPosition witCorpus 0 0 0 = (b', c', v', false) ∧
      getPreviousPosition witCorpus b' c' v' = (0, 0, 0, false) :=
  prev_next_roundtrip witCorpus 0 0 0 (by decide) (by decide)

/-- C3: `get_next_position` at the final verse of the final chapter of the
final book returns the same triple with the end flag `true`, and applying
it again to the returned triple yields the same answer (no wraparound). -/
theorem next_at_end_idempotent (books : Corpus) (b c v : Int)
    (hval : ValidPosition books b c v) (hlast : LastPosition books b c v) :
    ∃ b' c' v', getNextPosition books b c v = (b', c', v', true) ∧
      (b', c', v') = (b, c, v) ∧
      getNextPosition books b' c' v' = (b', c', v', true) := by
  obtain ⟨hb0, hb1, hc0, hc1, hv0, hv1⟩ := hval
  obtain ⟨he1, he2, he3⟩ := hlast
  have hmain : getNextPosition books b c v = (b, c, v, true) := by
    simp only [getNextPosition]
    rw [if_neg (by omega), if_neg (by omega), if_neg (by omega)]
  exact ⟨b, c, v, hmain, rfl, hmain⟩

/-- Witness for C3 at the concrete last position (0,0,1) of `witCorpus`. -/
theorem next_at_end_idempotent_wit :
    ∃ b' c' v', getNextPosition witCorpus 0 0 1 = (b', c', v', true) ∧
      (b', c', v') = (0, 0, 1) ∧
      getNextPosition witCorpus b' c' v' = (b', c', v', true) :=
  next_at_end_idempotent witCorpus 0 0 1 (by decide) (by decide)

/-- C10: every corpus accessor is total over arbitrary `Int` indices and
returns its sentinel (`none`, `[]`, empty text, `0`) whenever the
corresponding index is out of range, negative indices included. -/
theorem accessors_total_default (books : Corpus) (b c v : Int) :
    (¬ (0 ≤ b ∧ b < (books.length : Int)) →
        getBook books b = none ∧ getChapterCount books b = 0 ∧
        getChapter books b c = [] ∧ getVerse books b c v = [] ∧
        getVerseCount books b c = 0) ∧
    (¬ (0 ≤ c ∧ c < getChapterCount books b) →
        getChapter books b c = [] ∧ getVerse books b c v = [] ∧
        getVerseCount books b c = 0) ∧
    (¬ (0 ≤ v ∧ v < getVerseCount books b c) → getVerse books b c v = []) := by
  refine ⟨?_, ?_, ?_⟩
  · intro h
    have hb : getBook books b = none := by unfold getBook; rw [if_neg h]
    have hchap : getChapter books b c = [] := by unfold getChapter; rw [hb]
    refine ⟨hb, ?_, hchap, ?_, ?_⟩
    · unfold getChapterCount; rw [hb]
    · unfold getVerse; rw [hchap]; simp
    · unfold getVerseCount; rw [hchap]; rfl
  · intro h
    have hchap : getChapter books b c = [] := by
      unfold getChapter
      unfold getChapterCount at h
      cases hgb : getBook books b with
      | none => rfl
      | some book =>
        rw [hgb] at h
        dsimp only at h ⊢
        rw [if_neg h]
    refine ⟨hchap, ?_, ?_⟩
    · unfold getVerse; rw [hchap]; simp
    · unfold getVerseCount; rw [hchap]; rfl
  · intro h
    unfold getVerseCount at h
    unfold getVerse
    rw [if_neg h]

/-- Witness for C10 at the empty corpus and index −1. -/
theorem accessors_total_default_wit :
    getBook ([] : Corpus) (-1) = none ∧ getChapterCount ([] : Corpus) (-1) = 0 ∧
    getChapter ([] : Corpus) (-1) (-1) = [] ∧ getVerse ([] : Corpus) (-1) (-1) (-1) = [] ∧
    getVerseCount ([] : Corpus) (-1) (-1) = 0 :=
  (accessors_total_default ([] : Corpus) (-1) (-1) (-1)).1 (by decide)

/-! ### History / Database (`app/utils/history.py`, `app/utils/database.py`) -/

/-- Persistent reading state of the SQLite database: the `chapters_read`
rows (unique on `(book_abbrev, chapter_index)`, in insertion order) and
the single `reading_stats` counters row. -/
structure DbState where
  chaptersRead : List (List Char × Int)
  versesRead : Int
  timeReading : Int
deriving Repr, DecidableEq

/-- `Database.mark_chapter_read` (`INSERT OR IGNORE` on the unique key). -/
def markChapterRead (db : DbState) (bookAbbrev : List Char) (chapterIndex : Int) : DbState :=
  if db.chaptersRead.any (fun p => p.1 == bookAbbrev && p.2 == chapterIndex) then db
  else { db with chaptersRead := db.chaptersRead ++ [(bookAbbrev, chapterIndex)] }

/-- `Database.get_total_chapters_read` (`COUNT(*)`). -/
def getTotalChaptersRead (db : DbState) : Int := db.chaptersRead.length

/-- Python `int()` truncation (toward zero) of a rational. -/
def pyInt (q : ℚ) : Int := q.num.tdiv q.den

/-- `History.start_session`: `self._session_start = time.time()`,
unconditionally. The session marker is the `Option`-valued start time. -/
def startSession (now : ℚ) (_session : Option ℚ) : Option ℚ := some now

/-- `History.is_session_active`. -/
def isSessionActive (session : Option ℚ) : Bool := session.isSome

/-- `History.end_session`: credit the elapsed seconds and clear the marker. -/
def endSession (db : DbState) (session : Option ℚ) (now : ℚ) : DbState × Option ℚ :=
  match session with
  | some s => ({ db with timeReading := db.timeReading + pyInt (now - s) }, none)
  | none => (db, none)

/-- `History.TOTAL_CHAPTERS`. -/
def TOTAL_CHAPTERS : Int := 1189

/-- Round-half-to-even of a rational to an integer (Python `round`). -/
def roundHalfEven (q : ℚ) : Int :=
  let f : Int := ⌊q⌋
  if q - f < 1 / 2 then f
  else if (1 : ℚ) / 2 < q - f then f + 1
  else if f % 2 = 0 then f else f + 1

/-- Python `round(x, 1)`: round to one decimal place, half to even. -/
def pyRound1 (x : ℚ) : ℚ := (roundHalfEven (x * 10) : ℚ) / 10

/-- The dictionary returned by `History.get_stats`. -/
structure Stats where
  chapters_read : Int
  total_chapters : Int
  total_verses_read : Int
  total_time_hours : Int
  total_time_minutes : Int
  total_time_seconds : Int
  progress_percent : ℚ
deriving Repr, DecidableEq

/-- `History.get_stats`, with the wall clock passed explicitly. Python's
`//` is floor division (`Int.fdiv`) and `%` matches `Int.emod`. -/
def getStats (db : DbState) (session : Option ℚ) (now : ℚ) : Stats :=
  let totalTime := db.timeReading +
    (match session with
     | some s => pyInt (now - s)
     | none => 0)
  let hours := totalTime.fdiv 3600
  let minutes := (totalTime.emod 3600).fdiv 60
  let chaptersRead := getTotalChaptersRead db
  { chapters_read := chaptersRead
    total_chapters := TOTAL_CHAPTERS
    total_verses_read := db.versesRead
    total_time_hours := hours
    total_time_minutes := minutes
    total_time_seconds := totalTime
    progress_percent := pyRound1 ((chaptersRead : ℚ) / (TOTAL_CHAPTERS : ℚ) * 100) }

/-- C1 counterexample: with a session already open (start time 5),
`start_session` at wall-clock 10 changes the recorded start time, so it
is not a no-op. -/
theorem startSession_not_noop_cex :
    isSessionActive (some (5 : ℚ)) = true ∧
    startSession 10 (some (5 : ℚ)) ≠ some (5 : ℚ) := by
  refine ⟨rfl, ?_⟩
  intro h
  rw [startSession, Option.some.injEq] at h
  norm_num at h

/-- C1 (amended): `start_session` with a session already open does not
raise, but it unconditionally overwrites the recorded session start with
the current wall-clock time (restarting the session) instead of being a
no-op; the session stays active. -/
theorem startSession_overwrites (now : ℚ) (session : Option ℚ) :
    startSession now session = some now ∧
    isSessionActive (startSession now session) = true :=
  ⟨rfl, rfl⟩

/-- C8: `progress_percent` is the chapters-read count divided by the fixed
constant 1189 (no dependence on the loaded translation), times 100,
rounded to one decimal; it is 0 with no chapters read and 100 with 1189. -/
theorem getStats_progress_percent (db : DbState) (session : Option ℚ) (now : ℚ) :
    (getStats db session now).progress_percent
      = pyRound1 ((getTotalChaptersRead db : ℚ) / 1189 * 100) ∧
    (getStats db session now).total_chapters = 1189 ∧
    (getTotalChaptersRead db = 0 → (getStats db session now).progress_percent = 0) ∧
    (getTotalChaptersRead db = 1189 → (getStats db session now).progress_percent = 100) := by
  refine ⟨rfl, rfl, ?_, ?_⟩
  · intro h
    show pyRound1 ((getTotalChaptersRead db : ℚ) / (TOTAL_CHAPTERS : ℚ) * 100) = 0
    rw [h]
    norm_num [TOTAL_CHAPTERS, pyRound1, roundHalfEven]
  · intro h
    show pyRound1 ((getTotalChaptersRead db : ℚ) / (TOTAL_CHAPTERS : ℚ) * 100) = 100
    rw [h]
    norm_num [TOTAL_CHAPTERS, pyRound1, roundHalfEven]

/-- Witness for C8: the empty database reports 0.0 percent. -/
theorem getStats_progress_percent_wit :
    (getStats ⟨[], 0, 0⟩ none 0).progress_percent = 0 :=
  (getStats_progress_percent ⟨[], 0, 0⟩ none 0).2.2.1 rfl

/-- A row of the `favorites` table (unique on the position triple). -/
structure Favorite where
  book_index : Int
  chapter_index : Int
  verse_index : Int
  verse_text : List Char
  reference : List Char
  note : Option (List Char)
deriving Repr, DecidableEq

/-- `Database.add_favorite`: plain `INSERT`; a duplicate of the unique
`(book_index, chapter_index, verse_index)` key raises `IntegrityError`,
which is caught and reported as `False` with the table unchanged
(the transaction is rolled back). -/
def addFavorite (favs : List Favorite) (bookIndex chapterIndex verseIndex : Int)
    (verseText reference : List Char) (note : Option (List Char)) :
    Bool × List Favorite :=
  if favs.any fun f =>
      f.book_index == bookIndex && f.chapter_index == chapterIndex
        && f.verse_index == verseIndex then
    (false, favs)
  else
    (true, favs ++ [⟨bookIndex, chapterIndex, verseIndex, verseText, reference, note⟩])

/-- `Database.get_favorites_count`. -/
def getFavoritesCount (favs : List Favorite) : Int := favs.length

/-- C9: inserting a favorite at a fresh position triple succeeds (returns
`true`, count grows by one); a second insertion at the identical triple
returns `false` and leaves the stored favorites unchanged. -/
theorem addFavorite_duplicate (favs : List Favorite) (bi ci vi : Int)
    (t r : List Char) (n : Option (List Char))
    (t2 r2 : List Char) (n2 : Option (List Char))
    (h : favs.any (fun f =>
        f.book_index == bi && f.chapter_index == ci && f.verse_index == vi) = false) :
    (addFavorite favs bi ci vi t r n).1 = true ∧
    getFavoritesCount (addFavorite favs bi ci vi t r n).2 = getFavoritesCount favs + 1 ∧
    addFavorite (addFavorite favs bi ci vi t r n).2 bi ci vi t2 r2 n2
      = (false, (addFavorite favs bi ci vi t r n).2) := by
  have hins : addFavorite favs bi ci vi t r n
      = (true, favs ++ [⟨bi, ci, vi, t, r, n⟩]) := by
    unfold addFavorite
    rw [if_neg (by rw [h]; exact Bool.false_ne_true)]
  refine ⟨by rw [hins], ?_, ?_⟩
  · rw [hins]
    unfold getFavoritesCount
    simp
  · rw [hins]
    unfold addFavorite
    rw [if_pos]
    simp [List.any_append]

/-- Witness for C9 starting from the empty favorites table: the count
after the first insertion is 1 and the duplicate is rejected. -/
theorem addFavorite_duplicate_wit :
    (addFavorite [] 0 0 0 "v".data "r".data none).1 = true ∧
    getFavoritesCount (addFavorite [] 0 0 0 "v".data "r".data none).2
      = getFavoritesCount [] + 1 ∧
    addFavorite (addFavorite [] 0 0 0 "v".data "r".data none).2 0 0 0
        "v".data "r".data none
      = (false, (addFavorite [] 0 0 0 "v".data "r".data none).2) :=
  addFavorite_duplicate [] 0 0 0 "v".data "r".data none "v".data "r".data none rfl

/-! ### Full-text search (`Bible.search`) -/

/-- Python's `in` on strings: substring containment. -/
def containsSub (needle hay : List Char) : Bool :=
  match hay with
  | [] => needle.isEmpty
  | c :: t => needle.isPrefixOf (c :: t) || containsSub needle t

/-- `str.replace(old, new)` (all non-overlapping occurrences, left to
right), with an explicit fuel argument so the kernel can evaluate it; the
fuel is one more than the remaining text length, and every step consumes
at least one character of text. -/
def pyReplaceF : Nat → List Char → List Char → List Char → List Char
  | 0, _, _, _ => []
  | fuel + 1, old, new, s =>
    if old = [] then
      match s with
      | [] => new
      | c :: t => new ++ c :: pyReplaceF fuel old new t
    else if old.isPrefixOf s then new ++ pyReplaceF fuel old new (s.drop old.length)
    else
      match s with
      | [] => []
      | c :: t => c :: pyReplaceF fuel old new t

/-- `s.replace(old, new)`. -/
def pyReplace (old new s : List Char) : List Char := pyReplaceF (s.length + 1) old new s

/-- `re.sub` of the `IGNORECASE`-compiled escaped query with
`lambda m: f"**{m.group()}**"`: wrap every leftmost non-overlapping
case-insensitive occurrence in `**`, keeping the original casing of the
matched span. Fueled like `pyReplaceF`. -/
def subCIF : Nat → List Char → List Char → List Char
  | 0, _, _ => []
  | fuel + 1, q, t =>
    if q ≠ [] ∧ (pyLower q).isPrefixOf (pyLower t) then
      '*' :: '*' :: (t.take q.length ++ '*' :: '*' :: subCIF fuel q (t.drop q.length))
    else
      match t with
      | [] => []
      | c :: rest => c :: subCIF fuel q rest

/-- The case-insensitive highlight of `Bible.search`. -/
def subCI (q t : List Char) : List Char := subCIF (t.length + 1) q t

/-- Decomposition of the text into the greedy leftmost non-overlapping
case-insensitive match spans (flag `true`) and the remaining single
characters (flag `false`), following the scan of `subCIF`. -/
def ciSegsF : Nat → List Char → List Char → List (Bool × List Char)
  | 0, _, _ => []
  | fuel + 1, q, t =>
    if q ≠ [] ∧ (pyLower q).isPrefixOf (pyLower t) then
      (true, t.take q.length) :: ciSegsF fuel q (t.drop q.length)
    else
      match t with
      | [] => []
      | c :: rest => (false, [c]) :: ciSegsF fuel q rest

/-- Segment decomposition of a text with respect to a query. -/
def ciSegs (q t : List Char) : List (Bool × List Char) := ciSegsF (t.length + 1) q t

/-- Wrap a match segment in `**` markers; keep a non-match segment. -/
def wrapSeg (p : Bool × List Char) : List Char :=
  if p.1 then '*' :: '*' :: p.2 ++ ['*', '*'] else p.2

/-- One entry of the result list of `Bible.search`. -/
structure SearchResult where
  book_index : Nat
  chapter_index : Nat
  verse_index : Nat
  verse_text : List Char
  reference : List Char
  highlight : List Char
deriving Repr, DecidableEq

/-- The result dictionary built for one matching verse. -/
def mkResult (books : Corpus) (query : List Char) (cs : Bool) (bi ci vi : Nat)
    (text : List Char) : SearchResult :=
  { book_index := bi
    chapter_index := ci
    verse_index := vi
    verse_text := text
    reference := getReference books bi ci vi
    highlight :=
      if cs then pyReplace query ('*' :: '*' :: query ++ ['*', '*']) text
      else subCI query text }

/-- The containment test of `Bible.search`: both sides lowercased unless
case-sensitive. -/
def verseMatches (query : List Char) (cs : Bool) (text : List Char) : Bool :=
  containsSub (if cs then query else pyLower query) (if cs then text else pyLower text)

/-- The verse loop of `Bible.search` (breaks once `max_results` is hit). -/
def searchInVerses (books : Corpus) (query : List Char) (cs : Bool) (maxResults : Nat)
    (bi ci : Nat) (vi : Nat) (verses : List (List Char)) (acc : List SearchResult) :
    List SearchResult :=
  match verses with
  | [] => acc
  | text :: rest =>
    if maxResults ≤ acc.length then acc
    else
      searchInVerses books query cs maxResults bi ci (vi + 1) rest
        (if verseMatches query cs text then
          acc ++ [mkResult books query cs bi ci vi text]
        else acc)

/-- The chapter loop of `Bible.search`. -/
def searchInChapters (books : Corpus) (query : List Char) (cs : Bool) (maxResults : Nat)
    (bi : Nat) (ci : Nat) (chapters : List (List (List Char))) (acc : List SearchResult) :
    List SearchResult :=
  match chapters with
  | [] => acc
  | verses :: rest =>
    if maxResults ≤ acc.length then acc
    else
      searchInChapters books query cs maxResults bi (ci + 1) rest
        (searchInVerses books query cs maxResults bi ci 0 verses acc)

/-- The book loop of `Bible.search`. -/
def searchInBooks (books : Corpus) (query : List Char) (cs : Bool) (maxResults : Nat)
    (bi : Nat) (bs : List Book) (acc : List SearchResult) : List SearchResult :=
  match bs with
  | [] => acc
  | bk :: rest =>
    if maxResults ≤ acc.length then acc
    else
      searchInBooks books query cs maxResults (bi + 1) rest
        (searchInChapters books query cs maxResults bi 0 bk.chapters acc)

/-- `Bible.search`. -/
def search (books : Corpus) (query : List Char) (maxResults : Nat) (cs : Bool) :
    List SearchResult :=
  if query = [] ∨ pyStrip query = [] then []
  else searchInBooks books query cs maxResults 0 books []

/-- Specification-side: all hits of one verse list, enumerated from `vi`. -/
def hitsInVerses (books : Corpus) (query : List Char) (cs : Bool) (bi ci : Nat)
    (verses : List (List Char)) (vi : Nat) : List SearchResult :=
  ((verses.enumFrom vi).filter fun p => verseMatches query cs p.2).map fun p =>
    mkResult books query cs bi ci p.1 p.2

/-- Specification-side: all hits of one chapter list, enumerated from `ci`. -/
def hitsInChapters (books : Corpus) (query : List Char) (cs : Bool) (bi : Nat)
    (chapters : List (List (List Char))) (ci : Nat) : List SearchResult :=
  (chapters.enumFrom ci).flatMap fun cp => hitsInVerses books query cs bi cp.1 cp.2 0

/-- Specification-side: every matching verse of the corpus in enumeration
order (books, then chapters, then verses). -/
def allMatches (books : Corpus) (query : List Char) (cs : Bool) : List SearchResult :=
  (books.enumFrom 0).flatMap fun bp => hitsInChapters books query cs bp.1 bp.2.chapters 0

lemma searchInVerses_eq (books : Corpus) (q : List Char) (cs : Bool) (m : Nat)
    (bi ci : Nat) :
    ∀ (verses : List (List Char)) (vi : Nat) (acc : List SearchResult),
      searchInVerses books q cs m bi ci vi verses acc
        = acc ++ (hitsInVerses books q cs bi ci verses vi).take (m - acc.length) := by
  intro verses
  induction verses with
  | nil => intro vi acc; simp [searchInVerses, hitsInVerses]
  | cons text rest ih =>
    intro vi acc
    by_cases hm : m ≤ acc.length
    · simp [searchInVerses, hm, Nat.sub_eq_zero_of_le hm]
    · simp only [searchInVerses]
      rw [if_neg hm]
      by_cases hmt : verseMatches q cs text = true
      · rw [if_pos hmt, ih]
        have hhits : hitsInVerses books q cs bi ci (text :: rest) vi
            = mkResult books q cs bi ci vi text :: hitsInVerses books q cs bi ci rest (vi + 1) := by
          simp [hitsInVerses, List.enumFrom_cons, hmt]
        rw [hhits]
        have hk : m - acc.length = (m - (acc.length + 1)) + 1 := by omega
        rw [hk, List.take_succ_cons]
        simp [List.length_append]
      · rw [if_neg hmt, ih]
        have hhits : hitsInVerses books q cs bi ci (text :: rest) vi
            = hitsInVerses books q cs bi ci rest (vi + 1) := by
          simp [hitsInVerses, List.enumFrom_cons, hmt]
        rw [hhits]

lemma searchInChapters_eq (books : Corpus) (q : List Char) (cs : Bool) (m : Nat)
    (bi : Nat) :
    ∀ (chapters : List (List (List Char))) (ci : Nat) (acc : List SearchResult),
      searchInChapters books q cs m bi ci chapters acc
        = acc ++ (hitsInChapters books q cs bi chapters ci).take (m - acc.length) := by
  intro chapters
  induction chapters with
  | nil => intro ci acc; simp [searchInChapters, hitsInChapters]
  | cons verses rest ih =>
    intro ci acc
    by_cases hm : m ≤ acc.length
    · simp [searchInChapters, hm, Nat.sub_eq_zero_of_le hm]
    · simp only [searchInChapters]
      rw [if_neg hm, searchInVerses_eq, ih]
      have hhits : hitsInChapters books q cs bi (verses :: rest) ci
          = hitsInVerses books q cs bi ci verses 0
            ++ hitsInChapters books q cs bi rest (ci + 1) := by
        simp [hitsInChapters, List.enumFrom_cons]
      rw [hhits, List.take_append_eq_append_take, List.append_assoc]
      congr 1
      congr 1
      have hlen : (acc ++ (hitsInVerses books q cs bi ci verses 0).take (m - acc.length)).length
          = acc.length + min (m - acc.length) (hitsInVerses books q cs bi ci verses 0).length := by
        simp [List.length_append, List.length_take]
      rw [hlen]
      congr 1
      omega

lemma searchInBooks_eq (books : Corpus) (q : List Char) (cs : Bool) (m : Nat) :
    ∀ (bs : List Book) (bi : Nat) (acc : List SearchResult),
      searchInBooks books q cs m bi bs acc
        = acc ++ ((bs.enumFrom bi).flatMap fun bp =>
            hitsInChapters books q cs bp.1 bp.2.chapters 0).take (m - acc.length) := by
  intro bs
  induction bs with
  | nil => intro bi acc; simp [searchInBooks]
  | cons bk rest ih =>
    intro bi acc
    by_cases hm : m ≤ acc.length
    · simp [searchInBooks, hm, Nat.sub_eq_zero_of_le hm]
    · simp only [searchInBooks]
      rw [if_neg hm, searchInChapters_eq, ih]
      have hhits : ((bk :: rest).enumFrom bi).flatMap
            (fun bp => hitsInChapters books q cs bp.1 bp.2.chapters 0)
          = hitsInChapters books q cs bi bk.chapters 0
            ++ (rest.enumFrom (bi + 1)).flatMap
                (fun bp => hitsInChapters books q cs bp.1 bp.2.chapters 0) := by
        simp [List.enumFrom_cons]
      rw [hhits, List.take_append_eq_append_take, List.append_assoc]
      congr 1
      congr 1
      have hlen : (acc ++ (hitsInChapters books q cs bi bk.chapters 0).take (m - acc.length)).length
          = acc.length + min (m - acc.length) (hitsInChapters books q cs bi bk.chapters 0).length := by
        simp [List.length_append, List.length_take]
      rw [hlen]
      congr 1
      omega

/-- The cap-and-enumerate characterization of `Bible.search`. -/
lemma search_characterization (books : Corpus) (query : List Char) (maxResults : Nat)
    (cs : Bool) :
    search books query maxResults cs
      = if query = [] ∨ pyStrip query = [] then []
        else (allMatches books query cs).take maxResults := by
  unfold search
  by_cases htriv : query = [] ∨ pyStrip query = []
  · rw [if_pos htriv, if_pos htriv]
  · rw [if_neg htriv, if_neg htriv, searchInBooks_eq]
    simp [allMatches]

/-- C4: `search` returns exactly the first `max_results` entries (hence
`min(max_results, k)` of the `k` total) of the matching verses in corpus
enumeration order — a verse matches iff it contains the query as a
substring, both sides lowercased unless case-sensitive — and an empty or
whitespace-only query yields the empty list. -/
theorem search_eq_take_allMatches (books : Corpus) (query : List Char) (maxResults : Nat)
    (cs : Bool) :
    search books query maxResults cs
      = if query = [] ∨ pyStrip query = [] then []
        else (allMatches books query cs).take maxResults :=
  search_characterization books query maxResults cs

/-- The greedy scan of `subCIF` agrees with the segment decomposition
`ciSegsF`: the segments concatenate back to the text, the output is the
concatenation of the wrapped segments, match segments are exactly the
case-insensitive spans of the query with original casing, and non-match
segments contain no case-insensitive occurrence of the query. -/
lemma ciSegsF_spec (q : List Char) (hq : q ≠ []) :
    ∀ (fuel : Nat) (t : List Char), t.length < fuel →
      ((ciSegsF fuel q t).map Prod.snd).flatten = t ∧
      subCIF fuel q t = ((ciSegsF fuel q t).map wrapSeg).flatten ∧
      ∀ p ∈ ciSegsF fuel q t,
        (p.1 = true → pyLower p.2 = pyLower q ∧ p.2.length = q.length) ∧
        (p.1 = false → containsSub (pyLower q) (pyLower p.2) = false) := by
  intro fuel
  induction fuel with
  | zero => intro t ht; omega
  | succ fuel ih =>
    intro t ht
    have hqlen : 1 ≤ q.length := by
      cases q with
      | nil => exact absurd rfl hq
      | cons a l => simp
    by_cases hpre : (pyLower q).isPrefixOf (pyLower t) = true
    · have hpfx : pyLower q <+: pyLower t := List.isPrefixOf_iff_prefix.mp hpre
      have hple : q.length ≤ t.length := by
        have h1 := hpfx.length_le
        simpa [pyLower] using h1
      have hdrop : (t.drop q.length).length < fuel := by
        simp only [List.length_drop]; omega
      obtain ⟨ih1, ih2, ih3⟩ := ih (t.drop q.length) hdrop
      have hseg : ciSegsF (fuel + 1) q t
          = (true, t.take q.length) :: ciSegsF fuel q (t.drop q.length) := by
        simp only [ciSegsF]; rw [if_pos ⟨hq, hpre⟩]
      have hsub : subCIF (fuel + 1) q t
          = '*' :: '*' :: (t.take q.length ++ '*' :: '*' :: subCIF fuel q (t.drop q.length)) := by
        simp only [subCIF]; rw [if_pos ⟨hq, hpre⟩]
      have htake_low : pyLower (t.take q.length) = pyLower q := by
        have heq : pyLower q = (pyLower t).take (pyLower q).length :=
          List.prefix_iff_eq_take.mp hpfx
      -- `pyLower` commutes with `take`
        rw [pyLower, List.map_take]
        rw [heq]
        simp [pyLower]
      have htake_len : (t.take q.length).length = q.length := by
        simp only [List.length_take]; omega
      refine ⟨?_, ?_, ?_⟩
      · rw [hseg]
        simp only [List.map_cons, List.flatten]
        rw [ih1, List.take_append_drop]
      · rw [hseg, hsub, ih2]
        simp [wrapSeg]
      · intro p hp
        rw [hseg] at hp
        rcases List.mem_cons.mp hp with hp1 | hp2
        · subst hp1
          exact ⟨fun _ => ⟨htake_low, htake_len⟩, fun hff => by simp at hff⟩
        · exact ih3 p hp2
    · have hcond : ¬ (q ≠ [] ∧ (pyLower q).isPrefixOf (pyLower t) = true) := by
        intro hc; exact hpre hc.2
      cases t with
      | nil =>
        have hseg : ciSegsF (fuel + 1) q [] = [] := by
          simp only [ciSegsF]; rw [if_neg hcond]
        have hsub : subCIF (fuel + 1) q [] = [] := by
          simp only [subCIF]; rw [if_neg hcond]
        simp [hseg, hsub]
      | cons c rest =>
        have hrest : rest.length < fuel := by
          simp only [List.length_cons] at ht; omega
        obtain ⟨ih1, ih2, ih3⟩ := ih rest hrest
        have hseg : ciSegsF (fuel + 1) q (c :: rest)
            = (false, [c]) :: ciSegsF fuel q rest := by
          simp only [ciSegsF]; rw [if_neg hcond]
        have hsub : subCIF (fuel + 1) q (c :: rest) = c :: subCIF fuel q rest := by
          simp only [subCIF]; rw [if_neg hcond]
        refine ⟨?_, ?_, ?_⟩
        · rw [hseg]
          simp only [List.map_cons, List.flatten]
          rw [ih1]
          rfl
        · rw [hseg, hsub, ih2]
          simp [wrapSeg]
        · intro p hp
          rw [hseg] at hp
          rcases List.mem_cons.mp hp with hp1 | hp2
          · subst hp1
            refine ⟨fun htt => by simp at htt, fun _ => ?_⟩
            have hqlow : pyLower q ≠ [] := by
              intro hnil
              exact hq (List.map_eq_nil_iff.mp hnil)
            by_cases hpx : (pyLower q).isPrefixOf [pyCharLower c] = true
            · exfalso
              apply hpre
              have hn : pyLower q = [pyCharLower c] := by
                obtain ⟨s, hs⟩ := List.isPrefixOf_iff_prefix.mp hpx
                cases hql : pyLower q with
                | nil => exact absurd hql hqlow
                | cons y ys =>
                  rw [hql] at hs
                  simp only [List.cons_append, List.cons.injEq] at hs
                  obtain ⟨hy, hys⟩ := hs
                  obtain ⟨hys', -⟩ := List.append_eq_nil.mp hys
                  rw [hy, hys']
              have hlowcons : pyLower (c :: rest) = pyCharLower c :: pyLower rest := rfl
              rw [hlowcons, hn]
              simp [List.isPrefixOf]
            · have hlowc : pyLower [c] = [pyCharLower c] := rfl
              rw [hlowc]
              simp only [containsSub]
              rw [Bool.or_eq_false_iff]
              refine ⟨Bool.eq_false_iff.mpr hpx, ?_⟩
              cases hql : pyLower q with
              | nil => exact absurd hql hqlow
              | cons y ys => rfl
          · exact ih3 p hp2

/-- C5: in case-insensitive search, every returned result's highlight is
the `re.sub` rewrite of its verse text, which decomposes the text into
segments whose concatenation is the verse text; matched segments (all
greedy leftmost non-overlapping case-insensitive occurrences, not just
the first) are wrapped in `**` with their original casing, and no
occurrence of the query hides in an unwrapped segment — so deleting the
inserted markers restores the stored verse text exactly. -/
theorem search_highlight_ci (books : Corpus) (query : List Char) (maxResults : Nat)
    (r : SearchResult) (hq : query ≠ [])
    (hr : r ∈ search books query maxResults false) :
    r.highlight = subCI query r.verse_text ∧
    ((ciSegs query r.verse_text).map Prod.snd).flatten = r.verse_text ∧
    r.highlight = ((ciSegs query r.verse_text).map wrapSeg).flatten ∧
    ∀ p ∈ ciSegs query r.verse_text,
      (p.1 = true → pyLower p.2 = pyLower query ∧ p.2.length = query.length) ∧
      (p.1 = false → containsSub (pyLower query) (pyLower p.2) = false) := by
  rw [search_characterization] at hr
  by_cases htriv : query = [] ∨ pyStrip query = []
  · rw [if_pos htriv] at hr
    cases hr
  · rw [if_neg htriv] at hr
    have hr' : r ∈ allMatches books query false := List.take_subset _ _ hr
    simp only [allMatches, hitsInChapters, hitsInVerses, List.mem_flatMap, List.mem_map,
      List.mem_filter] at hr'
    obtain ⟨bp, -, cp, -, vp, -, hrr⟩ := hr'
    have hhl : r.highlight = subCI query r.verse_text := by
      rw [← hrr]
      simp [mkResult]
    obtain ⟨h1, h2, h3⟩ :=
      ciSegsF_spec query hq (r.verse_text.length + 1) r.verse_text (by omega)
    exact ⟨hhl, h1, by rw [hhl]; exact h2, h3⟩

/-- Witness for C5: a one-verse corpus with verse `"Aba"` and query `"a"`. -/
theorem search_highlight_ci_wit :
    (mkResult [⟨"gn".data, [["Aba".data]]⟩] "a".data false 0 0 0 "Aba".data).highlight
      = subCI "a".data
          (mkResult [⟨"gn".data, [["Aba".data]]⟩] "a".data false 0 0 0 "Aba".data).verse_text :=
  (search_highlight_ci [⟨"gn".data, [["Aba".data]]⟩] "a".data 10
    (mkResult [⟨"gn".data, [["Aba".data]]⟩] "a".data false 0 0 0 "Aba".data)
    (by decide) (by decide)).1

/-! ### Reference search (`Bible.search_by_reference`) -/

/-- Python regex `\w` (word character), over the ASCII and Latin-1
ranges: alphanumeric, underscore, and Latin-1 letters. -/
def isWordChar (c : Char) : Bool :=
  c.isAlphanum || c == '_' ||
    (0xC0 ≤ c.toNat && c.toNat ≤ 0xFF && c.toNat != 0xD7 && c.toNat != 0xF7)

/-- `int()` of a decimal digit string. -/
def digitsToNat (ds : List Char) : Nat :=
  ds.foldl (fun a c => a * 10 + (c.toNat - '0'.toNat)) 0

/-- One backtracking path of the anchored reference patterns
`^(\d?\s*\w+)\s+(\d+):(\d+)$` and `^(\d?\s*\w+)\s+(\d+)$` of
`search_by_reference`; `withDigit` selects whether the optional leading
`\d?` consumes a digit. Within a path every further token is forced
(each quantified class is followed by a token from a disjoint class, so
each scan is maximal-munch), and the two patterns are distinguished by
whether a `:` follows the chapter digits — the chapter-and-verse pattern
can only match strings the chapter-only pattern cannot, and vice versa.
Returns the `(\d?\s*\w+)` group, the chapter digits, and the verse
digits when the first pattern matched. -/
def parseRefCore (withDigit : Bool) (s : List Char) :
    Option (List Char × List Char × Option (List Char)) :=
  let step :=
    if withDigit then
      match s with
      | c :: rest => if c.isDigit then some (([c] : List Char), rest) else none
      | [] => none
    else some (([] : List Char), s)
  match step with
  | none => none
  | some (pre, s1) =>
    let ws := s1.takeWhile Char.isWhitespace
    let s2 := s1.dropWhile Char.isWhitespace
    let w := s2.takeWhile isWordChar
    let s3 := s2.dropWhile isWordChar
    if w = [] then none
    else if s3.takeWhile Char.isWhitespace = [] then none
    else
      let s4 := s3.dropWhile Char.isWhitespace
      let d1 := s4.takeWhile Char.isDigit
      let s5 := s4.dropWhile Char.isDigit
      if d1 = [] then none
      else
        match s5 with
        | [] => some (pre ++ ws ++ w, d1, none)
        | ':' :: s6 =>
          let d2 := s6.takeWhile Char.isDigit
          if d2 = [] then none
          else if s6.dropWhile Char.isDigit = [] then
            some (pre ++ ws ++ w, d1, some d2)
          else none
        | _ => none

/-- The regex dispatch of `search_by_reference`: the digit path of the
greedy `\d?` is preferred; when it fails, the empty path is taken
(when the digit path succeeds at all, the empty path either fails or
yields the identical groups, so this order realizes the backtracking). -/
def parseRef (s : List Char) : Option (List Char × List Char × Option (List Char)) :=
  match parseRefCore true s with
  | some r => some r
  | none => parseRefCore false s

/-- The dictionary returned by `search_by_reference` on success. -/
structure RefResult where
  book_index : Int
  chapter_index : Int
  verse_index : Int
  verse_text : List Char
  reference : List Char
deriving Repr, DecidableEq

/-- The full-name resolution loop of `Bible._find_book_index`: for each
table entry whose display name equals the query (lowercased), return the
first book carrying that entry's abbreviation; keep scanning the table
when no book does. -/
def findByNames (books : Corpus) (nameLower : List Char) :
    List (List Char × List Char) → Option Nat
  | [] => none
  | (ab, full) :: rest =>
    if pyLower full == nameLower then
      match books.findIdx? (fun bk => pyLower bk.abbr == ab) with
      | some idx => some idx
      | none => findByNames books nameLower rest
    else findByNames books nameLower rest

/-- The name-beginning resolution loop of `Bible._find_book_index`
(`full_name.lower().startswith(name_lower)`). -/
def findByNameStart (books : Corpus) (nameLower : List Char) :
    List (List Char × List Char) → Option Nat
  | [] => none
  | (ab, full) :: rest =>
    if nameLower.isPrefixOf (pyLower full) then
      match books.findIdx? (fun bk => pyLower bk.abbr == ab) with
      | some idx => some idx
      | none => findByNameStart books nameLower rest
    else findByNameStart books nameLower rest

/-- `Bible._find_book_index`: exact abbreviation, then exact full name,
then full-name beginning. -/
def findBookIndex (books : Corpus) (name : List Char) : Option Nat :=
  let nameLower := pyStrip (pyLower name)
  match books.findIdx? (fun bk => pyLower bk.abbr == nameLower) with
  | some idx => some idx
  | none =>
    match findByNames books nameLower BOOK_NAMES with
    | some idx => some idx
    | none => findByNameStart books nameLower BOOK_NAMES

/-- `Bible.search_by_reference`. -/
def searchByReference (books : Corpus) (reference : List Char) : Option RefResult :=
  match parseRef (pyStrip reference) with
  | none => none
  | some (g1, chDigits, verseDigits) =>
    let bookName := pyLower (pyStrip g1)
    let chapterNum : Int := (digitsToNat chDigits : Int) - 1
    match findBookIndex books bookName with
    | none => none
    | some bookIdx =>
      if chapterNum < 0 ∨ getChapterCount books bookIdx ≤ chapterNum then none
      else
        match verseDigits with
        | some vd =>
          let verseNum : Int := (digitsToNat vd : Int) - 1
          if verseNum < 0 ∨ getVerseCount books bookIdx chapterNum ≤ verseNum then none
          else some ⟨bookIdx, chapterNum, verseNum,
            getVerse books bookIdx chapterNum verseNum,
            getReference books bookIdx chapterNum verseNum⟩
        | none => some ⟨bookIdx, chapterNum, 0,
            getVerse books bookIdx chapterNum 0,
            getReference books bookIdx chapterNum 0⟩

/-- `findByNames` only consults the table entries whose lowered display
name equals the query, in table order, taking the first that resolves. -/
lemma findByNames_eq_foldr (books : Corpus) (n : List Char) :
    ∀ L : List (List Char × List Char),
      findByNames books n L
        = (L.filter fun p => pyLower p.2 == n).foldr
            (fun p acc =>
              match books.findIdx? (fun bk => pyLower bk.abbr == p.1) with
              | some idx => some idx
              | none => acc) none := by
  intro L
  induction L with
  | nil => rfl
  | cons e rest ih =>
    obtain ⟨ab, full⟩ := e
    by_cases hc : (pyLower full == n) = true
    · have hfc : List.filter (fun p => pyLower p.2 == n) ((ab, full) :: rest)
          = (ab, full) :: List.filter (fun p => pyLower p.2 == n) rest :=
        List.filter_cons_of_pos hc
      rw [hfc]
      simp only [findByNames, List.foldr_cons]
      rw [if_pos hc]
      cases hfind : books.findIdx? (fun bk => pyLower bk.abbr == ab) with
      | some idx => rfl
      | none => exact ih
    · have hfc : List.filter (fun p => pyLower p.2 == n) ((ab, full) :: rest)
          = List.filter (fun p => pyLower p.2 == n) rest :=
        List.filter_cons_of_neg hc
      rw [hfc]
      simp only [findByNames]
      rw [if_neg hc]
      exact ih

/-- `findByNameStart` analogue of `findByNames_eq_foldr`. -/
lemma findByNameStart_eq_foldr (books : Corpus) (n : List Char) :
    ∀ L : List (List Char × List Char),
      findByNameStart books n L
        = (L.filter fun p => n.isPrefixOf (pyLower p.2)).foldr
            (fun p acc =>
              match books.findIdx? (fun bk => pyLower bk.abbr == p.1) with
              | some idx => some idx
              | none => acc) none := by
  intro L
  induction L with
  | nil => rfl
  | cons e rest ih =>
    obtain ⟨ab, full⟩ := e
    by_cases hc : n.isPrefixOf (pyLower full) = true
    · have hfc : List.filter (fun p => n.isPrefixOf (pyLower p.2)) ((ab, full) :: rest)
          = (ab, full) :: List.filter (fun p => n.isPrefixOf (pyLower p.2)) rest :=
        List.filter_cons_of_pos hc
      rw [hfc]
      simp only [findByNameStart, List.foldr_cons]
      rw [if_pos hc]
      cases hfind : books.findIdx? (fun bk => pyLower bk.abbr == ab) with
      | some idx => rfl
      | none => exact ih
    · have hfc : List.filter (fun p => n.isPrefixOf (pyLower p.2)) ((ab, full) :: rest)
          = List.filter (fun p => n.isPrefixOf (pyLower p.2)) rest :=
        List.filter_cons_of_neg hc
      rw [hfc]
      simp only [findByNameStart]
      rw [if_neg hc]
      exact ih

/-- Resolution of the name `joão`: no abbreviation matches exactly, the
only display name lowering to `joão` is `João` with abbreviation `jo`,
so the first book whose abbreviation is `jo` is returned. -/
lemma findBookIndex_joao (books : Corpus) (i : Nat)
    (habbr : ∀ bk ∈ books, (pyLower bk.abbr == "joão".data) = false)
    (hidx : books.findIdx? (fun bk => pyLower bk.abbr == "jo".data) = some i) :
    findBookIndex books "joão".data = some i := by
  simp only [findBookIndex]
  have hstrip : pyStrip (pyLower "joão".data) = "joão".data := by decide
  rw [hstrip]
  rw [List.findIdx?_eq_none_iff.mpr habbr]
  have h2 : findByNames books "joão".data BOOK_NAMES = some i := by
    rw [findByNames_eq_foldr]
    have hfilter : (BOOK_NAMES.filter fun p => pyLower p.2 == "joão".data)
        = [("jo".data, "João".data)] := by decide
    rw [hfilter]
    simp only [List.foldr_cons, List.foldr_nil]
    rw [hidx]
  rw [h2]

/-- C6: on a corpus whose first book abbreviated `jo` is at index `i`
(and no abbreviation is literally `joão`), with chapter 3 and verse 16
present, `search_by_reference` converts the 1-based numbers of
`"João 3:16"` to the 0-based pair (2, 15), and `"João 3"` resolves to
chapter index 2 with verse index 0 (the first verse of the chapter). -/
theorem searchByReference_joao (books : Corpus) (i : Nat)
    (habbr : ∀ bk ∈ books, (pyLower bk.abbr == "joão".data) = false)
    (hidx : books.findIdx? (fun bk => pyLower bk.abbr == "jo".data) = some i)
    (hch : (3 : Int) ≤ getChapterCount books (i : Int))
    (hv : (16 : Int) ≤ getVerseCount books (i : Int) 2) :
    searchByReference books "João 3:16".data
      = some ⟨(i : Int), 2, 15, getVerse books (i : Int) 2 15,
          getReference books (i : Int) 2 15⟩ ∧
    searchByReference books "João 3".data
      = some ⟨(i : Int), 2, 0, getVerse books (i : Int) 2 0,
          getReference books (i : Int) 2 0⟩ := by
  have hfind := findBookIndex_joao books i habbr hidx
  have hbookname : pyLower (pyStrip "João".data) = "joão".data := by decide
  constructor
  · have hparse : parseRef (pyStrip "João 3:16".data)
        = some ("João".data, "3".data, some "16".data) := by decide
    simp only [searchByReference]
    rw [hparse]
    dsimp only
    rw [hbookname, hfind]
    dsimp only
    have hch2 : (digitsToNat "3".data : Int) - 1 = 2 := by decide
    rw [hch2]
    rw [if_neg (by omega)]
    have hv2 : (digitsToNat "16".data : Int) - 1 = 15 := by decide
    rw [hv2]
    rw [if_neg (by omega)]
  · have hparse : parseRef (pyStrip "João 3".data)
        = some ("João".data, "3".data, none) := by decide
    simp only [searchByReference]
    rw [hparse]
    dsimp only
    rw [hbookname, hfind]
    dsimp only
    have hch2 : (digitsToNat "3".data : Int) - 1 = 2 := by decide
    rw [hch2]
    rw [if_neg (by omega)]

/-- Witness for C6: a one-book corpus abbreviated `jo`, three chapters,
sixteen verses in the third. -/
theorem searchByReference_joao_wit :
    searchByReference [⟨"jo".data, [["x".data], ["x".data], List.replicate 16 "v".data]⟩]
        "João 3:16".data
      = some ⟨((0 : Nat) : Int), 2, 15,
          getVerse [⟨"jo".data, [["x".data], ["x".data], List.replicate 16 "v".data]⟩]
            ((0 : Nat) : Int) 2 15,
          getReference [⟨"jo".data, [["x".data], ["x".data], List.replicate 16 "v".data]⟩]
            ((0 : Nat) : Int) 2 15⟩ ∧
    searchByReference [⟨"jo".data, [["x".data], ["x".data], List.replicate 16 "v".data]⟩]
        "João 3".data
      = some ⟨((0 : Nat) : Int), 2, 0,
          getVerse [⟨"jo".data, [["x".data], ["x".data], List.replicate 16 "v".data]⟩]
            ((0 : Nat) : Int) 2 0,
          getReference [⟨"jo".data, [["x".data], ["x".data], List.replicate 16 "v".data]⟩]
            ((0 : Nat) : Int) 2 0⟩ :=
  searchByReference_joao
    [⟨"jo".data, [["x".data], ["x".data], List.replicate 16 "v".data]⟩] 0
    (by decide) (by decide) (by decide) (by decide)

/-- C7: `search_by_reference` is total (the embedding returns an
`Option`, never raising) and returns `none` — the same no-match signal
as an empty free-text search — whenever the input matches neither
pattern, the book resolution fails (e.g. `"Livro 999:999"` on a corpus
with no such abbreviation), or the parsed 0-based chapter or verse
number falls outside the resolved book's range. -/
theorem searchByReference_failure_none (books : Corpus) (ref : List Char) :
    (parseRef (pyStrip ref) = none → searchByReference books ref = none) ∧
    (∀ g1 chd vd, parseRef (pyStrip ref) = some (g1, chd, vd) →
      (findBookIndex books (pyLower (pyStrip g1)) = none →
          searchByReference books ref = none) ∧
      ∀ i, findBookIndex books (pyLower (pyStrip g1)) = some i →
        (((digitsToNat chd : Int) - 1 < 0 ∨
            getChapterCount books i ≤ (digitsToNat chd : Int) - 1) →
          searchByReference books ref = none) ∧
        ∀ vdd, vd = some vdd →
          ((digitsToNat vdd : Int) - 1 < 0 ∨
              getVerseCount books i ((digitsToNat chd : Int) - 1)
                ≤ (digitsToNat vdd : Int) - 1) →
          searchByReference books ref = none) ∧
    ((∀ bk ∈ books, (pyLower bk.abbr == "livro".data) = false) →
      searchByReference books "Livro 999:999".data = none) := by
  refine ⟨?_, ?_, ?_⟩
  · intro h
    simp only [searchByReference]
    rw [h]
  · intro g1 chd vd hp
    refine ⟨?_, ?_⟩
    · intro hf
      simp only [searchByReference]
      rw [hp]
      dsimp only
      rw [hf]
    · intro i hf
      refine ⟨?_, ?_⟩
      · intro hcc
        simp only [searchByReference]
        rw [hp]
        dsimp only
        rw [hf]
        dsimp only
        rw [if_pos hcc]
      · intro vdd hvd hvv
        subst hvd
        simp only [searchByReference]
        rw [hp]
        dsimp only
        rw [hf]
        dsimp only
        by_cases hcc : ((digitsToNat chd : Int) - 1 < 0 ∨
            getChapterCount books i ≤ (digitsToNat chd : Int) - 1)
        · rw [if_pos hcc]
        · rw [if_neg hcc]
          rw [if_pos hvv]
  · intro hlivro
    have hparse : parseRef (pyStrip "Livro 999:999".data)
        = some ("Livro".data, "999".data, some "999".data) := by decide
    have hname : pyLower (pyStrip "Livro".data) = "livro".data := by decide
    have hfind : findBookIndex books "livro".data = none := by
      simp only [findBookIndex]
      have hstrip : pyStrip (pyLower "livro".data) = "livro".data := by decide
      rw [hstrip]
      rw [List.findIdx?_eq_none_iff.mpr hlivro]
      have h2 : findByNames books "livro".data BOOK_NAMES = none := by
        rw [findByNames_eq_foldr]
        have hfil : (BOOK_NAMES.filter fun p => pyLower p.2 == "livro".data) = [] := by
          decide
        rw [hfil]
        rfl
      rw [h2]
      have h3 : findByNameStart books "livro".data BOOK_NAMES = none := by
        rw [findByNameStart_eq_foldr]
        have hfil : (BOOK_NAMES.filter fun p =>
            ("livro".data).isPrefixOf (pyLower p.2)) = [] := by decide
        rw [hfil]
        rfl
      exact h3
    simp only [searchByReference]
    rw [hparse]
    dsimp only
    rw [hname, hfind]

/-- Witness for C7: an unparseable string and the unrecognized
`"Livro 999:999"` both yield `none` on the empty corpus. -/
theorem searchByReference_failure_none_wit :
    searchByReference ([] : Corpus) "xyz".data = none ∧
    searchByReference ([] : Corpus) "Livro 999:999".data = none :=
  ⟨(searchByReference_failure_none ([] : Corpus) "xyz".data).1 (by decide),
   (searchByReference_failure_none ([] : Corpus) "xyz".data).2.2 (by simp)⟩

end Selah
